import Mathlib

/-!
Verification of the dynamorse-test flow test harness (`src/testUtil.js`, plus the
older copy of the same module provided as an unnamed source file).

The development shallowly embeds the harness:

* the asynchronous flow-lifecycle protocol of `postFlow` (message handler,
  periodic stall check `checkCompleted`, flow deletion `deleteFlow`, and the
  `done` continuation) as an executable state machine driven by a list of
  events (timer ticks, counted messages, end-marker messages, responses to
  in-flight DELETE requests);
* the admin API helper `adminApiReq` as a function from the outcome of one
  HTTP exchange to the set of assertions recorded and continuations invoked;
* the grain validator `checkGrain` as a function from a message object to the
  list of recorded assertions and the reconstructed grain;
* the filesystem helpers `download` and `rimraf` over an inductive directory
  tree, with `rimraf` producing the trace of filesystem operations it performs.

JavaScript machine integers do not occur; counters are `Nat` and the sentinel
`lastCount = -1` makes `lastCount` an `Int`.
-/

/-- JavaScript-like values, as far as the harness inspects them: the grain
validator only tests fields for truthiness. -/
inductive JsVal
  | undef
  | null
  | bool (b : Bool)
  | num (n : Int)
  | str (s : String)
  deriving DecidableEq, Repr

/-- JavaScript truthiness for the modelled values: `undefined`, `null`,
`false`, `0` and the empty string are falsy. -/
def truthy : JsVal → Bool
  | JsVal.undef => false
  | JsVal.null => false
  | JsVal.bool b => b
  | JsVal.num n => n != 0
  | JsVal.str s => s != ""

namespace FlowRun

/-!
State machine for one `postFlow` run, after the flow has been created and the
WebSocket connection opened (`src/testUtil.js` lines 68-126).  The closure
state of `postFlow` (`params.count`, `lastCount`, `endReceived`,
`doneClosedown`, the live interval) is made explicit, together with
instrumentation counters: how many times the `done` continuation has run, how
many DELETE requests were issued, how many times `deleteFlow` was entered, and
how many `t.ok` assertions in the stall branch failed.
-/

/-- Which callback an in-flight DELETE request will run when it completes:
the stall path passes `() => onComplete()`, the end path passes
`() => { doneClosedown = true; clearInterval(id); done(); }`. -/
inductive DelCb
  | stallCb
  | endCb
  deriving DecidableEq, Repr

/-- Closure state of one `postFlow` run plus instrumentation counters. -/
structure FlowState where
  /-- `params.count`, incremented by the per-message test callback. -/
  count : Nat
  /-- `lastCount`, initialised to `-1`. -/
  lastCount : Int
  /-- `endReceived` flag. -/
  endReceived : Bool
  /-- `doneClosedown` flag. -/
  doneClosedown : Bool
  /-- whether the `setInterval` timer is still live (`clearInterval` unsets). -/
  intervalActive : Bool
  /-- `params.keepFlow`: when set, `deleteFlow` skips the DELETE request and
  invokes its continuation synchronously. -/
  keepFlow : Bool
  /-- continuations of DELETE requests still in flight, oldest first. -/
  pendingDeletes : List DelCb
  /-- number of DELETE requests actually issued. -/
  deleteReqs : Nat
  /-- number of times `deleteFlow` was entered. -/
  delCalls : Nat
  /-- number of times the `done` continuation has been invoked. -/
  doneCount : Nat
  /-- number of failing `t.ok` assertions recorded by the stall branch. -/
  failedAsserts : Nat
  deriving DecidableEq, Repr

/-- The `onComplete` continuation the timer passes to `checkCompleted`:
`clearInterval(id); done()`. -/
def runOnComplete (s : FlowState) : FlowState :=
  { s with intervalActive := false, doneCount := s.doneCount + 1 }

/-- The continuation the message-handler end path passes to `deleteFlow`:
`doneClosedown = true; clearInterval(id); done()`. -/
def runEndDelCb (s : FlowState) : FlowState :=
  { s with doneClosedown := true, intervalActive := false,
           doneCount := s.doneCount + 1 }

/-- Run the continuation of a completed DELETE request. -/
def runDelCb : DelCb → FlowState → FlowState
  | DelCb.stallCb => runOnComplete
  | DelCb.endCb => runEndDelCb

/-- `deleteFlow` as seen by the state machine: with `keepFlow` set the
continuation runs synchronously and no request is issued; otherwise a DELETE
request is issued and the continuation runs when its response arrives
(`adminApiReq` invokes it on success and on error alike). -/
def deleteFlow (cb : DelCb) (s : FlowState) : FlowState :=
  if s.keepFlow then
    runDelCb cb { s with delCalls := s.delCalls + 1 }
  else
    { s with pendingDeletes := s.pendingDeletes ++ [cb],
             deleteReqs := s.deleteReqs + 1,
             delCalls := s.delCalls + 1 }

/-- `checkCompleted` (`src/testUtil.js` lines 89-100), run on each timer tick:
if `doneClosedown` is already set it runs `onComplete`; otherwise, if the
message count is unchanged since the previous tick, it records the two `t.ok`
assertions (`endReceived` may fail, `doneClosedown` is false in this branch so
that assertion always fails), enters `deleteFlow` with `onComplete` as the
continuation, and then sets `doneClosedown`; in every case it finally stores
the current count in `lastCount`. -/
def checkCompleted (s : FlowState) : FlowState :=
  if s.doneClosedown then
    let s1 := runOnComplete s
    { s1 with lastCount := (s1.count : Int) }
  else if (s.count : Int) = s.lastCount then
    let s1 := { s with failedAsserts :=
      s.failedAsserts + (if s.endReceived then 0 else 1) + 1 }
    let s2 := deleteFlow DelCb.stallCb s1
    let s3 := { s2 with doneClosedown := true }
    { s3 with lastCount := (s3.count : Int) }
  else
    { s with lastCount := (s.count : Int) }

/-- The end continuation handed to the per-message callback `onMsg`
(`src/testUtil.js` lines 113-120): `endReceived = true` then `deleteFlow` with
the end-path continuation.  It consults no guard before tearing down. -/
def endCont (s : FlowState) : FlowState :=
  deleteFlow DelCb.endCb { s with endReceived := true }

/-- External events driving one run: a timer tick (which runs `checkCompleted`
while the interval is live), an ordinary data message (whose test callback
increments `params.count`), an end-marker message (whose test callback invokes
the end continuation), and the completion of an in-flight DELETE request
(success or failure: either way `deleteFlow` runs the same continuation). -/
inductive Ev
  | tick
  | dataMsg
  | endMsg
  | delResponse
  deriving DecidableEq, Repr

/-- One step of the run. -/
def step (s : FlowState) : Ev → FlowState
  | Ev.tick => if s.intervalActive then checkCompleted s else s
  | Ev.dataMsg => { s with count := s.count + 1 }
  | Ev.endMsg => endCont s
  | Ev.delResponse =>
      match s.pendingDeletes with
      | [] => s
      | cb :: rest => runDelCb cb { s with pendingDeletes := rest }

/-- Run a list of events from a state. -/
def run (s : FlowState) : List Ev → FlowState
  | [] => s
  | e :: es => run (step s e) es

/-- State right after the WebSocket connection opens: `params.count = 0`,
`lastCount = -1`, both flags clear, the interval timer live. -/
def initState (keep : Bool) : FlowState :=
  { count := 0, lastCount := -1, endReceived := false, doneClosedown := false,
    intervalActive := true, keepFlow := keep, pendingDeletes := [],
    deleteReqs := 0, delCalls := 0, doneCount := 0, failedAsserts := 0 }

end FlowRun

/-!
`adminApiReq` (`src/testUtil.js` lines 33-66), modelled as a function of the
outcome of the single HTTP exchange it performs.
-/

/-- Outcome of one admin API HTTP exchange: either the request errored at the
transport level, or a response arrived with a status code, a content type that
is or is not `application/json`, and a raw body. -/
inductive ReqOutcome
  | transportError (msg : String)
  | response (status : Nat) (contentTypeJson : Bool) (body : String)
  deriving DecidableEq, Repr

/-- What one `adminApiReq` call did: the assertions it recorded through the
test object (message, passed), how many times it ran `onError` and the success
callback `cb`, and the arguments `cb` received (`none` models the `null`
passed for a 204 response, `some body` the parsed JSON body otherwise). -/
structure ApiCallResult where
  asserts : List (String × Bool)
  onErrorCalls : Nat
  cbCalls : Nat
  cbArgs : List (Option String)
  deriving DecidableEq, Repr

/-- `adminApiReq t method path payload response onError cb`, as a function of
the expected status and the exchange outcome.  On a response it first records
`t.equal(statusCode, response)`; if the status is neither 200 nor 204 it runs
`onError` and returns; otherwise (for 200) it records the content-type
assertion and, once the body has streamed in, runs `cb` with `null` for 204
and the parsed body for 200.  On a transport error it records a failure and
runs `onError`. -/
def adminApiReq (expected : Nat) (out : ReqOutcome) : ApiCallResult :=
  match out with
  | ReqOutcome.transportError _ =>
      { asserts := [("problem with admin API request", false)],
        onErrorCalls := 1, cbCalls := 0, cbArgs := [] }
  | ReqOutcome.response status ctJson body =>
      let statusAssert : String × Bool :=
        ("status code is Success", decide (status = expected))
      if status = 200 ∨ status = 204 then
        { asserts := statusAssert ::
            (if status = 200 then [("content type is application/json", ctJson)] else []),
          onErrorCalls := 0, cbCalls := 1,
          cbArgs := [if status = 204 then none else some body] }
      else
        { asserts := [statusAssert], onErrorCalls := 1, cbCalls := 0,
          cbArgs := [] }

/-- What one `deleteFlow` call did (`src/testUtil.js` lines 78-87): the DELETE
request it issued, if any — method, path, payload and expected status — and how
many times its continuation `cb` ran. -/
structure DeleteFlowResult where
  requested : Option (String × String × String × Nat)
  cbCalls : Nat
  deriving DecidableEq, Repr

/-- The request body `deleteFlow` builds for the flow id. -/
def deleteFlowPayload (flowId : String) : String :=
  "\x7b\"id\" : \"" ++ flowId ++ "\"\x7d"

/-- `deleteFlow t flowId cb` as a function of the configuration flag
`params.keepFlow`, the flow id, and (when a request is made) the outcome of
that request.  With `keepFlow` set it only comments and runs `cb`; otherwise
it calls `adminApiReq` with method DELETE, path `/flow/` plus the id, expected
status 204, `cb` as the error continuation and `() => cb()` as the success
callback — so `cb` runs however the request turns out. -/
def deleteFlow (keepFlow : Bool) (flowId : String) (out : ReqOutcome) :
    DeleteFlowResult :=
  if keepFlow then
    { requested := none, cbCalls := 1 }
  else
    let api := adminApiReq 204 out
    { requested := some ("DELETE", "/flow/" ++ flowId,
        deleteFlowPayload flowId, 204),
      cbCalls := api.onErrorCalls + api.cbCalls }

/-!
The grain validator `checkGrain` (`src/testUtil.js` lines 210-222 and the same
function in the older module).
-/

/-- Modelled from the spec: the `Grain` value object (`Grain.js` is required
by both modules but is not among the provided sources).  The spec describes a
grain as an immutable value holding dual PTP timestamps, flow and source
identifiers, a duration and payload data; the constructor
`new Grain(payloads, ptpSync, ptpOrigin, timecode, flow_id, source_id,
duration)` stores the supplied fields. -/
structure Grain where
  payloads : JsVal
  ptpSync : JsVal
  ptpOrigin : JsVal
  timecode : JsVal
  flow_id : JsVal
  source_id : JsVal
  duration : JsVal
  deriving DecidableEq, Repr

/-- A WebSocket message object as `checkGrain` inspects it.  `payloadCount`
and `payloadSize` are numeric when present (`none` models a missing property,
matching the `hasOwnProperty` tests); the grain fields are arbitrary values
tested only for truthiness. -/
structure MsgObj where
  payloadCount : Option Int
  payloadSize : Option Int
  ptpSyncTimestamp : JsVal
  ptpOriginTimestamp : JsVal
  timecode : JsVal
  flow_id : JsVal
  source_id : JsVal
  duration : JsVal
  deriving DecidableEq, Repr

/-- `checkGrain t obj` from `src/testUtil.js`: build a grain from the message
fields (with `null` payload data), record seven assertions — payload count
equals one, payload size positive, and truthiness of the grain's sync
timestamp, origin timestamp, flow id, source id and duration — and return the
grain. -/
def checkGrain (obj : MsgObj) : List (String × Bool) × Grain :=
  let g : Grain :=
    { payloads := JsVal.null,
      ptpSync := obj.ptpSyncTimestamp, ptpOrigin := obj.ptpOriginTimestamp,
      timecode := obj.timecode, flow_id := obj.flow_id,
      source_id := obj.source_id, duration := obj.duration }
  ([("has single payload", decide ((obj.payloadCount.getD 0) = 1)),
    ("has payload contents", decide (0 < obj.payloadSize.getD 0)),
    ("has valid PTP sync timestamp", truthy g.ptpSync),
    ("has valid PTP origin timestamp", truthy g.ptpOrigin),
    ("has valid flow id", truthy g.flow_id),
    ("has valid source id", truthy g.source_id),
    ("has valid duration", truthy g.duration)], g)

/-!
Filesystem helpers `download` and `rimraf` (`src/testUtil.js` lines 224-248).
A filesystem object is an inductive tree; `rimraf` is modelled as a function
from the tree found at the target path to the trace of filesystem operations
it performs and the resulting object at that path.
-/

/-- A filesystem object: a plain file, or a directory with named entries. -/
inductive Entry
  | file
  | dir (entries : List (String × Entry))

/-- Filesystem operations `rimraf` performs, with the affected path (a list of
path components). -/
inductive FsOp
  | statOp (p : List String)
  | unlinkOp (p : List String)
  | readdirOp (p : List String)
  | rmdirOp (p : List String)
  deriving DecidableEq, Repr

/-- Operations performed for the entries of the directory at path `p`
(`src/testUtil.js` lines 240-245): each entry is `lstat`ed; a subdirectory is
removed by a recursive `rimraf` call (readdir, its own entries, then rmdir);
a file is unlinked. -/
def rimrafD (p : List String) : List (String × Entry) → List FsOp
  | [] => []
  | (name, Entry.file) :: rest =>
      FsOp.statOp (p ++ [name]) :: FsOp.unlinkOp (p ++ [name]) :: rimrafD p rest
  | (name, Entry.dir es) :: rest =>
      FsOp.statOp (p ++ [name]) :: FsOp.readdirOp (p ++ [name]) ::
        (rimrafD (p ++ [name]) es ++ (FsOp.rmdirOp (p ++ [name]) :: rimrafD p rest))

/-- `rimraf dir` as a function of the object currently at the path: when
nothing is there, `exists` is false and the function returns at once; when a
directory is there, it reads the directory, handles every entry, removes the
now-empty directory and leaves nothing at the path; a plain file makes
`readdir` fail with `ENOTDIR`. -/
def rimraf (p : List String) :
    Option Entry → Except String (List FsOp × Option Entry)
  | none => Except.ok ([], none)
  | some Entry.file => Except.error "ENOTDIR"
  | some (Entry.dir es) =>
      Except.ok (FsOp.readdirOp p :: (rimrafD p es ++ [FsOp.rmdirOp p]), none)

/-- Paths of all files in the entries of the directory at `p` (specification
side, for comparing with the unlink trace). -/
def filePathsD (p : List String) : List (String × Entry) → List (List String)
  | [] => []
  | (name, Entry.file) :: rest => (p ++ [name]) :: filePathsD p rest
  | (name, Entry.dir es) :: rest =>
      filePathsD (p ++ [name]) es ++ filePathsD p rest

/-- Paths of all subdirectories in the entries of the directory at `p`, each
listed after the paths inside it (specification side, for comparing with the
rmdir trace). -/
def dirPathsD (p : List String) : List (String × Entry) → List (List String)
  | [] => []
  | (_, Entry.file) :: rest => dirPathsD p rest
  | (name, Entry.dir es) :: rest =>
      (dirPathsD (p ++ [name]) es ++ [p ++ [name]]) ++ dirPathsD p rest

/-- The unlink operations of a trace, in order. -/
def unlinkTargets (ops : List FsOp) : List (List String) :=
  ops.filterMap (fun op =>
    match op with
    | FsOp.unlinkOp q => some q
    | _ => none)

/-- The rmdir operations of a trace, in order. -/
def rmdirTargets (ops : List FsOp) : List (List String) :=
  ops.filterMap (fun op =>
    match op with
    | FsOp.rmdirOp q => some q
    | _ => none)

/-- Outcome of the `mkdir` call at the start of `download`. -/
inductive MkdirOutcome
  | created
  | err (code : String)
  deriving DecidableEq, Repr

/-- Behaviour of `mkdir` on the staging directory: it creates the directory
when absent, and fails with code `EEXIST` when the directory is already
there.  Returns the outcome and whether the directory exists afterwards. -/
def mkdirTmp (present : Bool) : MkdirOutcome × Bool :=
  if present then (MkdirOutcome.err "EEXIST", true) else (MkdirOutcome.created, true)

/-- The directory-creation phase of `download` (`src/testUtil.js` lines
225-229): `mkdir` is attempted inside a try; a failure whose code is
`EEXIST` is swallowed, any other failure is re-thrown; on `Except.ok` the
function goes on to fetch the URI into the staging directory. -/
def download (m : MkdirOutcome) : Except String Unit :=
  match m with
  | MkdirOutcome.created => Except.ok ()
  | MkdirOutcome.err code =>
      if code = "EEXIST" then Except.ok () else Except.error code

/-- `checkGrain` from the older module (the unnamed source file, lines
203-215), embedded separately so the two modules' validators can be
compared. -/
def checkGrainOld (obj : MsgObj) : List (String × Bool) × Grain :=
  let g : Grain :=
    { payloads := JsVal.null,
      ptpSync := obj.ptpSyncTimestamp, ptpOrigin := obj.ptpOriginTimestamp,
      timecode := obj.timecode, flow_id := obj.flow_id,
      source_id := obj.source_id, duration := obj.duration }
  ([("has single payload", decide ((obj.payloadCount.getD 0) = 1)),
    ("has payload contents", decide (0 < obj.payloadSize.getD 0)),
    ("has valid PTP sync timestamp", truthy g.ptpSync),
    ("has valid PTP origin timestamp", truthy g.ptpOrigin),
    ("has valid flow id", truthy g.flow_id),
    ("has valid source id", truthy g.source_id),
    ("has valid duration", truthy g.duration)], g)

/-!
Theorems settling the claims.
-/

/-- Helper: every `adminApiReq` call runs exactly one of its two
continuations, whichever way the exchange turns out. -/
lemma adminApiReq_calls_total (expected : Nat) (out : ReqOutcome) :
    (adminApiReq expected out).onErrorCalls + (adminApiReq expected out).cbCalls = 1 := by
  cases out with
  | transportError msg => rfl
  | response status ctJson body =>
      by_cases h : status = 200 ∨ status = 204 <;> simp [adminApiReq, h]

/-- Claim C2 counterexample: with expected status 200, a 204 response is a
status other than the expected one, yet `adminApiReq` does not run `onError`
and does run `cb` (with `null`) — the claim that any status other than the
expected one aborts via `onError` without invoking `cb` is false. -/
theorem adminApiReq_unexpected_status_cex :
    (204 : Nat) ≠ 200 ∧
    (adminApiReq 200 (ReqOutcome.response 204 false "ignored")).onErrorCalls = 0 ∧
    (adminApiReq 200 (ReqOutcome.response 204 false "ignored")).cbCalls = 1 := by
  refine ⟨by decide, ?_, ?_⟩ <;> rfl

/-- Claim C2, amended: a response status that is neither 200 nor 204 runs
`onError`, leaves `cb` uninvoked, and records only the expected-status
assertion, which fails exactly when the status differs from the expected one;
a transport error likewise records a failure and runs `onError` without `cb`;
but a status of 200 or 204 runs `cb` and not `onError` even when it differs
from the expected status (the mismatch is recorded only as a failing
assertion). -/
theorem adminApiReq_error_paths (expected status : Nat) (ctJson : Bool)
    (body msg : String) :
    (¬(status = 200 ∨ status = 204) →
      (adminApiReq expected (ReqOutcome.response status ctJson body)).onErrorCalls = 1 ∧
      (adminApiReq expected (ReqOutcome.response status ctJson body)).cbCalls = 0 ∧
      (adminApiReq expected (ReqOutcome.response status ctJson body)).asserts =
        [("status code is Success", decide (status = expected))]) ∧
    ((adminApiReq expected (ReqOutcome.transportError msg)).onErrorCalls = 1 ∧
     (adminApiReq expected (ReqOutcome.transportError msg)).cbCalls = 0 ∧
     (adminApiReq expected (ReqOutcome.transportError msg)).asserts =
        [("problem with admin API request", false)]) ∧
    ((status = 200 ∨ status = 204) →
      (adminApiReq expected (ReqOutcome.response status ctJson body)).onErrorCalls = 0 ∧
      (adminApiReq expected (ReqOutcome.response status ctJson body)).cbCalls = 1) := by
  refine ⟨fun h => ?_, ⟨rfl, rfl, rfl⟩, fun h => ?_⟩ <;> simp [adminApiReq, h]

/-- Witness for `adminApiReq_error_paths` at expected 200 and actual 404. -/
theorem adminApiReq_error_paths_witness :
    (adminApiReq 200 (ReqOutcome.response 404 false "nf")).onErrorCalls = 1 ∧
    (adminApiReq 200 (ReqOutcome.response 404 false "nf")).cbCalls = 0 ∧
    (adminApiReq 200 (ReqOutcome.response 404 false "nf")).asserts =
      [("status code is Success", decide ((404 : Nat) = 200))] :=
  (adminApiReq_error_paths 200 404 false "nf" "unused").1 (by decide)

/-- Claim C4: `checkGrain` records exactly seven assertions — payload count
equals one, payload size strictly positive, and truthiness of the sync
timestamp, origin timestamp, flow id, source id and duration of the
reconstructed grain — they all pass precisely under those conditions, and the
returned grain carries the input fields unchanged (with `null` payload
data). -/
theorem checkGrain_asserts_spec (obj : MsgObj) :
    (checkGrain obj).1.length = 7 ∧
    (((checkGrain obj).1.all fun a => a.2) = true ↔
      (obj.payloadCount.getD 0 = 1 ∧ 0 < obj.payloadSize.getD 0 ∧
       truthy obj.ptpSyncTimestamp = true ∧
       truthy obj.ptpOriginTimestamp = true ∧
       truthy obj.flow_id = true ∧ truthy obj.source_id = true ∧
       truthy obj.duration = true)) ∧
    (checkGrain obj).2 =
      { payloads := JsVal.null, ptpSync := obj.ptpSyncTimestamp,
        ptpOrigin := obj.ptpOriginTimestamp, timecode := obj.timecode,
        flow_id := obj.flow_id, source_id := obj.source_id,
        duration := obj.duration } := by
  refine ⟨rfl, ?_, rfl⟩
  simp [checkGrain, List.all, and_assoc]

/-- Witness for `checkGrain_asserts_spec`: a fully valid message passes all
assertions. -/
theorem checkGrain_asserts_spec_witness :
    ((checkGrain
        { payloadCount := some 1, payloadSize := some 3,
          ptpSyncTimestamp := JsVal.str "sync",
          ptpOriginTimestamp := JsVal.str "origin",
          timecode := JsVal.null, flow_id := JsVal.str "f",
          source_id := JsVal.str "s",
          duration := JsVal.str "d" }).1.all fun a => a.2) = true :=
  (checkGrain_asserts_spec _).2.1.mpr (by decide)

/-- Claim C5: with `keepFlow` set, `deleteFlow` issues no request and still
runs its continuation once; otherwise it issues a DELETE to `/flow/` followed
by the flow id, carrying the id as JSON payload, with status 204 expected. -/
theorem deleteFlow_keepFlow_spec (flowId : String) (out : ReqOutcome) :
    ((deleteFlow true flowId out).requested = none ∧
     (deleteFlow true flowId out).cbCalls = 1) ∧
    (deleteFlow false flowId out).requested =
      some ("DELETE", "/flow/" ++ flowId, deleteFlowPayload flowId, 204) := by
  exact ⟨⟨rfl, rfl⟩, rfl⟩

/-- Claim C9: `deleteFlow` runs its continuation exactly once on every
outcome — skipped via `keepFlow`, DELETE answered with any status, or
transport error — because it hands `cb` to `adminApiReq` both as the error
continuation and (wrapped) as the success callback. -/
theorem deleteFlow_cb_once (keep : Bool) (flowId : String) (out : ReqOutcome) :
    (deleteFlow keep flowId out).cbCalls = 1 := by
  cases keep with
  | true => rfl
  | false => simpa [deleteFlow] using adminApiReq_calls_total 204 out

/-- Claim C6: `rimraf` on an absent path is a successful no-op: no filesystem
operations beyond the existence check, no error, and the path stays absent. -/
theorem rimraf_absent_noop (p : List String) :
    rimraf p none = Except.ok ([], none) := rfl

/-- Claim C7: the directory-creation phase of `download` proceeds when the
staging directory is created, proceeds when creation fails because the
directory already exists (`EEXIST` is swallowed), and propagates every other
creation error unchanged; `mkdir` creates the directory when absent. -/
theorem download_mkdir_spec :
    download MkdirOutcome.created = Except.ok () ∧
    download (MkdirOutcome.err "EEXIST") = Except.ok () ∧
    (∀ code : String, code ≠ "EEXIST" →
      download (MkdirOutcome.err code) = Except.error code) ∧
    (mkdirTmp false = (MkdirOutcome.created, true) ∧
      download (mkdirTmp false).1 = Except.ok ()) ∧
    (mkdirTmp true = (MkdirOutcome.err "EEXIST", true) ∧
      download (mkdirTmp true).1 = Except.ok ()) := by
  refine ⟨rfl, rfl, fun code h => ?_, ⟨rfl, rfl⟩, ⟨rfl, rfl⟩⟩
  simp [download, h]

/-- Witness for `download_mkdir_spec`: a permission error propagates. -/
theorem download_mkdir_spec_witness :
    download (MkdirOutcome.err "EACCES") = Except.error "EACCES" :=
  download_mkdir_spec.2.2.1 "EACCES" (by decide)

/-- Claim C10: the grain validators of the newer and the older module are
behaviourally identical: same assertions, same outcomes, same reconstructed
grain on every message object. -/
theorem checkGrain_equiv_old (obj : MsgObj) : checkGrain obj = checkGrainOld obj :=
  rfl

/-- Helper: the unlink operations performed for a directory's entries are
exactly the paths of the files in the tree. -/
lemma unlinkTargets_rimrafD (p : List String) (es : List (String × Entry)) :
    unlinkTargets (rimrafD p es) = filePathsD p es := by
  induction p, es using rimrafD.induct with
  | case1 p => simp [rimrafD, filePathsD, unlinkTargets]
  | case2 p name rest ih =>
      simp only [rimrafD, filePathsD, unlinkTargets, List.filterMap_cons,
        List.filterMap_append] at ih ⊢
      simp [ih]
  | case3 p name es rest ih1 ih2 =>
      simp only [rimrafD, filePathsD, unlinkTargets, List.filterMap_cons,
        List.filterMap_append] at ih1 ih2 ⊢
      simp [ih1, ih2]

/-- Helper: the rmdir operations performed for a directory's entries are
exactly the paths of the subdirectories, each after its own contents. -/
lemma rmdirTargets_rimrafD (p : List String) (es : List (String × Entry)) :
    rmdirTargets (rimrafD p es) = dirPathsD p es := by
  induction p, es using rimrafD.induct with
  | case1 p => simp [rimrafD, dirPathsD, rmdirTargets]
  | case2 p name rest ih =>
      simp only [rimrafD, dirPathsD, rmdirTargets, List.filterMap_cons,
        List.filterMap_append] at ih ⊢
      simp [ih]
  | case3 p name es rest ih1 ih2 =>
      simp only [rimrafD, dirPathsD, rmdirTargets, List.filterMap_cons,
        List.filterMap_append] at ih1 ih2 ⊢
      simp [ih1, ih2]

/-- Helper: every direct entry of the directory is `lstat`ed. -/
lemma statOp_mem_rimrafD (p : List String) (es : List (String × Entry))
    (name : String) (e : Entry) (h : (name, e) ∈ es) :
    FsOp.statOp (p ++ [name]) ∈ rimrafD p es := by
  induction es with
  | nil => cases h
  | cons hd rest ih =>
      obtain ⟨hdName, hdEntry⟩ := hd
      rcases List.mem_cons.mp h with heq | hmem
      · cases heq
        cases e with
        | file => simp [rimrafD]
        | dir es' => simp [rimrafD]
      · cases hdEntry with
        | file => simp [rimrafD, ih hmem]
        | dir es' => simp [rimrafD, ih hmem]

/-- Claim C8: on an existing directory, `rimraf` succeeds, stats every entry,
unlinks exactly the files of the tree, removes exactly the directories of the
tree, performs the removal of the root directory as the very last operation,
and afterwards nothing remains at the path. -/
theorem rimraf_removes_tree (p : List String) (es : List (String × Entry)) :
    ∃ ops : List FsOp,
      rimraf p (some (Entry.dir es)) = Except.ok (ops, none) ∧
      unlinkTargets ops = filePathsD p es ∧
      rmdirTargets ops = dirPathsD p es ++ [p] ∧
      ops.getLast? = some (FsOp.rmdirOp p) ∧
      (∀ name e, (name, e) ∈ es → FsOp.statOp (p ++ [name]) ∈ ops) := by
  refine ⟨FsOp.readdirOp p :: (rimrafD p es ++ [FsOp.rmdirOp p]), rfl, ?_, ?_, ?_, ?_⟩
  · have h := unlinkTargets_rimrafD p es
    simp only [unlinkTargets, List.filterMap_cons, List.filterMap_append] at h ⊢
    simp [h]
  · have h := rmdirTargets_rimrafD p es
    simp only [rmdirTargets, List.filterMap_cons, List.filterMap_append] at h ⊢
    simp [h]
  · rw [show FsOp.readdirOp p :: (rimrafD p es ++ [FsOp.rmdirOp p]) =
        (FsOp.readdirOp p :: rimrafD p es) ++ [FsOp.rmdirOp p] from rfl]
    exact List.getLast?_concat _
  · intro name e h
    exact List.mem_cons_of_mem _ (List.mem_append_left _ (statOp_mem_rimrafD p es name e h))

/-- Witness for `rimraf_removes_tree` on the tree with a single file entry. -/
theorem rimraf_removes_tree_witness :
    ∃ ops : List FsOp,
      rimraf ["tmp"] (some (Entry.dir [("a", Entry.file)])) = Except.ok (ops, none) ∧
      FsOp.statOp ["tmp", "a"] ∈ ops := by
  obtain ⟨ops, h1, _, _, _, h5⟩ := rimraf_removes_tree ["tmp"] [("a", Entry.file)]
  exact ⟨ops, h1, h5 "a" Entry.file (List.mem_singleton.mpr rfl)⟩

/-- Claim C3 counterexample: in a reachable state where `doneClosedown` is
already set (the stall branch fired earlier but its DELETE is still in
flight) and the count has since changed, `checkCompleted` triggers no
deletion, yet it does more than record the count: it runs `onComplete`,
invoking `done` again.  The claim that outside the quiescent-triggering case
the check records the count and does nothing else is false. -/
theorem checkCompleted_not_only_records_cex :
    (FlowRun.run (FlowRun.initState false)
        [FlowRun.Ev.tick, FlowRun.Ev.tick, FlowRun.Ev.dataMsg]).doneClosedown = true ∧
    ((FlowRun.run (FlowRun.initState false)
        [FlowRun.Ev.tick, FlowRun.Ev.tick, FlowRun.Ev.dataMsg]).count : Int) ≠
      (FlowRun.run (FlowRun.initState false)
        [FlowRun.Ev.tick, FlowRun.Ev.tick, FlowRun.Ev.dataMsg]).lastCount ∧
    (FlowRun.checkCompleted (FlowRun.run (FlowRun.initState false)
        [FlowRun.Ev.tick, FlowRun.Ev.tick, FlowRun.Ev.dataMsg])).delCalls =
      (FlowRun.run (FlowRun.initState false)
        [FlowRun.Ev.tick, FlowRun.Ev.tick, FlowRun.Ev.dataMsg]).delCalls ∧
    (FlowRun.checkCompleted (FlowRun.run (FlowRun.initState false)
        [FlowRun.Ev.tick, FlowRun.Ev.tick, FlowRun.Ev.dataMsg])).doneCount =
      (FlowRun.run (FlowRun.initState false)
        [FlowRun.Ev.tick, FlowRun.Ev.tick, FlowRun.Ev.dataMsg]).doneCount + 1 := by
  refine ⟨rfl, by decide, rfl, rfl⟩

/-- Claim C3, amended: `checkCompleted` always records the current count as
the new last count; it enters `deleteFlow` exactly when closedown has not
completed and the count is unchanged since the previous check; when closedown
has already completed it instead runs the completion continuation again
(finalizing without deletion); and only in the remaining case — closedown not
completed and the count changed — does it do nothing besides recording the
count. -/
theorem checkCompleted_branch_spec (s : FlowRun.FlowState) :
    (FlowRun.checkCompleted s).lastCount = (s.count : Int) ∧
    (FlowRun.checkCompleted s).delCalls =
      s.delCalls + (if s.doneClosedown = false ∧ (s.count : Int) = s.lastCount
        then 1 else 0) ∧
    (s.doneClosedown = true →
      FlowRun.checkCompleted s =
        { FlowRun.runOnComplete s with lastCount := (s.count : Int) }) ∧
    (s.doneClosedown = false → (s.count : Int) ≠ s.lastCount →
      FlowRun.checkCompleted s = { s with lastCount := (s.count : Int) }) := by
  by_cases hdc : s.doneClosedown = true
  · refine ⟨?_, ?_, fun _ => ?_, fun hf => absurd hdc (by simp [hf])⟩ <;>
      simp [FlowRun.checkCompleted, FlowRun.runOnComplete, hdc]
  · have hdcf : s.doneClosedown = false := by simpa using hdc
    by_cases hq : (s.count : Int) = s.lastCount
    · refine ⟨?_, ?_, fun ht => absurd ht hdc, fun _ hne => absurd hq hne⟩ <;>
        simp only [FlowRun.checkCompleted, FlowRun.deleteFlow, FlowRun.runDelCb,
          FlowRun.runOnComplete, hdcf, hq, if_true, if_false, Bool.false_eq_true,
          and_self, ite_true] <;> split <;> simp [hq]
    · refine ⟨?_, ?_, fun ht => absurd ht hdc, fun _ _ => ?_⟩ <;>
        simp [FlowRun.checkCompleted, hdcf, hq]

/-- Witness for `checkCompleted_branch_spec`: with closedown not completed and
a changed count, the check only records the count. -/
theorem checkCompleted_branch_spec_witness :
    FlowRun.checkCompleted { FlowRun.initState false with count := 5 } =
      { FlowRun.initState false with count := 5, lastCount := (5 : Int) } :=
  (checkCompleted_branch_spec { FlowRun.initState false with count := 5 }).2.2.2
    rfl (by decide)

/-- Claim C1 counterexample: with synchronous deletion (`keepFlow` set), two
timer ticks with no messages make the stall path tear down and signal `done`;
an end-marker message arriving afterwards is not guarded by `doneClosedown`
and performs the whole teardown again, signalling `done` a second time.  The
claim that completion is signalled exactly once, with the loser of the race a
no-op, is false. -/
theorem postFlow_double_done_cex :
    (FlowRun.run (FlowRun.initState true)
      [FlowRun.Ev.tick, FlowRun.Ev.tick, FlowRun.Ev.endMsg]).doneCount = 2 := by
  rfl

/-- Invariant of runs with synchronous deletion in which the end continuation
never fires: no DELETE in flight, at most one completion, and a live timer
means no completion yet. -/
def quietInv (s : FlowRun.FlowState) : Prop :=
  s.keepFlow = true ∧ s.pendingDeletes = [] ∧
  (s.doneClosedown = true → s.intervalActive = false) ∧
  s.doneCount ≤ 1 ∧
  (s.intervalActive = true → s.doneCount = 0)

/-- Helper: `quietInv` is preserved by every event except an end-marker. -/
lemma quietInv_step (s : FlowRun.FlowState) (e : FlowRun.Ev)
    (he : e ≠ FlowRun.Ev.endMsg) (h : quietInv s) :
    quietInv (FlowRun.step s e) := by
  obtain ⟨hk, hp, hdc, hle, hia0⟩ := h
  cases e with
  | endMsg => exact absurd rfl he
  | dataMsg => exact ⟨hk, hp, hdc, hle, hia0⟩
  | delResponse =>
      have hs : FlowRun.step s FlowRun.Ev.delResponse = s := by
        simp [FlowRun.step, hp]
      rw [hs]
      exact ⟨hk, hp, hdc, hle, hia0⟩
  | tick =>
      by_cases hia : s.intervalActive = true
      · have hdcf : s.doneClosedown = false := by
          rcases Bool.eq_false_or_eq_true s.doneClosedown with ht | hf
          · exact absurd (hdc ht) (by simp [hia])
          · exact hf
        have h0 : s.doneCount = 0 := hia0 hia
        have hs : FlowRun.step s FlowRun.Ev.tick = FlowRun.checkCompleted s := by
          simp [FlowRun.step, hia]
        rw [hs]
        by_cases hq : (s.count : Int) = s.lastCount
        · refine ⟨?_, ?_, ?_, ?_, ?_⟩ <;>
            simp [FlowRun.checkCompleted, FlowRun.deleteFlow, FlowRun.runDelCb,
              FlowRun.runOnComplete, hdcf, hq, hk, hp, h0]
        · have hrec : FlowRun.checkCompleted s = { s with lastCount := (s.count : Int) } := by
            simp [FlowRun.checkCompleted, hdcf, hq]
          rw [hrec]
          exact ⟨hk, hp, hdc, hle, hia0⟩
      · have hs : FlowRun.step s FlowRun.Ev.tick = s := by
          simp [FlowRun.step, hia]
        rw [hs]
        exact ⟨hk, hp, hdc, hle, hia0⟩

/-- Helper: `quietInv` is preserved by any run without an end-marker. -/
lemma quietInv_run (evs : List FlowRun.Ev) (s : FlowRun.FlowState)
    (hne : FlowRun.Ev.endMsg ∉ evs) (hs : quietInv s) :
    quietInv (FlowRun.run s evs) := by
  induction evs generalizing s with
  | nil => exact hs
  | cons e es ih =>
      rw [List.mem_cons, not_or] at hne
      exact ih _ hne.2 (quietInv_step s e (fun heq => hne.1 heq.symm) hs)

/-- Invariant after a completed teardown with nothing in flight: the timer is
dead and `done` has run exactly once. -/
def doneInv (s : FlowRun.FlowState) : Prop :=
  s.pendingDeletes = [] ∧ s.intervalActive = false ∧ s.doneCount = 1

/-- Helper: `doneInv` is preserved by every event except an end-marker. -/
lemma doneInv_step (s : FlowRun.FlowState) (e : FlowRun.Ev)
    (he : e ≠ FlowRun.Ev.endMsg) (h : doneInv s) :
    doneInv (FlowRun.step s e) := by
  obtain ⟨hp, hia, hd⟩ := h
  cases e with
  | endMsg => exact absurd rfl he
  | dataMsg => exact ⟨hp, hia, hd⟩
  | tick =>
      have hs : FlowRun.step s FlowRun.Ev.tick = s := by
        simp [FlowRun.step, hia]
      rw [hs]
      exact ⟨hp, hia, hd⟩
  | delResponse =>
      have hs : FlowRun.step s FlowRun.Ev.delResponse = s := by
        simp [FlowRun.step, hp]
      rw [hs]
      exact ⟨hp, hia, hd⟩

/-- Helper: `doneInv` is preserved by any run without an end-marker. -/
lemma doneInv_run (evs : List FlowRun.Ev) (s : FlowRun.FlowState)
    (hne : FlowRun.Ev.endMsg ∉ evs) (hs : doneInv s) :
    doneInv (FlowRun.run s evs) := by
  induction evs generalizing s with
  | nil => exact hs
  | cons e es ih =>
      rw [List.mem_cons, not_or] at hne
      exact ih _ hne.2 (doneInv_step s e (fun heq => hne.1 heq.symm) hs)

/-- Claim C1, amended: only under synchronous deletion (`keepFlow` set) and a
single trigger is completion signalled exactly once — a run whose first event
invokes the end continuation, with no later end-marker, signals `done` exactly
once, and a run with no end-marker at all signals `done` at most once (from
the stall path).  Outside those conditions exactly-once fails in two ways: the
message path is not guarded by `doneClosedown`, so an end-marker arriving
after the stall path has torn down signals `done` a second time; and with an
asynchronous DELETE in flight, a later tick takes the `doneClosedown` branch
of `checkCompleted` and the DELETE response then signals `done` a second
time. -/
theorem postFlow_done_once_single_trigger :
    (∀ evs : List FlowRun.Ev, FlowRun.Ev.endMsg ∉ evs →
      (FlowRun.run (FlowRun.step (FlowRun.initState true) FlowRun.Ev.endMsg)
        evs).doneCount = 1) ∧
    (∀ evs : List FlowRun.Ev, FlowRun.Ev.endMsg ∉ evs →
      (FlowRun.run (FlowRun.initState true) evs).doneCount ≤ 1) ∧
    (FlowRun.run (FlowRun.initState true)
      [FlowRun.Ev.tick, FlowRun.Ev.tick, FlowRun.Ev.endMsg]).doneCount = 2 ∧
    (FlowRun.run (FlowRun.initState false)
      [FlowRun.Ev.tick, FlowRun.Ev.tick, FlowRun.Ev.tick,
        FlowRun.Ev.delResponse]).doneCount = 2 := by
  refine ⟨?_, ?_, rfl, rfl⟩
  · intro evs h
    exact (doneInv_run evs _ h ⟨rfl, rfl, rfl⟩).2.2
  · intro evs h
    exact (quietInv_run evs _ h
      ⟨rfl, rfl, fun ht => Bool.noConfusion ht, by decide, fun _ => rfl⟩).2.2.2.1

/-- Witness for `postFlow_done_once_single_trigger` on two short runs. -/
theorem postFlow_done_once_single_trigger_witness :
    (FlowRun.run (FlowRun.step (FlowRun.initState true) FlowRun.Ev.endMsg)
      [FlowRun.Ev.tick, FlowRun.Ev.dataMsg]).doneCount = 1 ∧
    (FlowRun.run (FlowRun.initState true)
      [FlowRun.Ev.tick, FlowRun.Ev.tick]).doneCount ≤ 1 :=
  ⟨postFlow_done_once_single_trigger.1 [FlowRun.Ev.tick, FlowRun.Ev.dataMsg]
      (by decide),
   postFlow_done_once_single_trigger.2.1 [FlowRun.Ev.tick, FlowRun.Ev.tick]
      (by decide)⟩
